import Mathlib

/-!
Verification development for the Trello Sync API (src/app.py).

The Python module is shallowly embedded: JSON values are the inductive
type `JVal`; the upstream Trello HTTP API is a deterministic oracle
`World` mapping endpoint strings to outcomes (a raised transport
exception or a status/body response); Python exceptions are the
`Except String` monad (the carried string models `str(e)`); the two
per-client caches are explicit state; the module-global
`processed_cards` set is threaded in and out of the `/sync` handler.
-/

deriving instance DecidableEq for Except

/-- JSON values as delivered by `response.json()` in `app.py`. -/
inductive JVal where
  | null
  | bool (b : Bool)
  | num (n : Int)
  | str (s : String)
  | arr (xs : List JVal)
  | obj (fields : List (String × JVal))

mutual

/-- Structural equality of JSON values (Python `==` on parsed JSON). -/
def jeq : JVal → JVal → Bool
  | .null, .null => true
  | .bool a, .bool b => a == b
  | .num a, .num b => a == b
  | .str a, .str b => a == b
  | .arr xs, .arr ys => jeqList xs ys
  | .obj fs, .obj gs => jeqFields fs gs
  | _, _ => false

def jeqList : List JVal → List JVal → Bool
  | [], [] => true
  | x :: xs, y :: ys => jeq x y && jeqList xs ys
  | _, _ => false

def jeqFields : List (String × JVal) → List (String × JVal) → Bool
  | [], [] => true
  | (k, v) :: fs, (k2, v2) :: gs => k == k2 && jeq v v2 && jeqFields fs gs
  | _, _ => false

end

mutual

theorem jeq_iff : ∀ a b : JVal, jeq a b = true ↔ a = b
  | .null, b => by cases b <;> simp [jeq]
  | .bool a, b => by cases b <;> simp [jeq]
  | .num a, b => by cases b <;> simp [jeq]
  | .str a, b => by cases b <;> simp [jeq]
  | .arr xs, b => by
      cases b <;> simp [jeq]
      exact jeqList_iff xs _
  | .obj fs, b => by
      cases b <;> simp [jeq]
      exact jeqFields_iff fs _

theorem jeqList_iff : ∀ xs ys : List JVal, jeqList xs ys = true ↔ xs = ys
  | [], ys => by cases ys <;> simp [jeqList]
  | x :: xs, ys => by
      cases ys with
      | nil => simp [jeqList]
      | cons y ys =>
          simp only [jeqList, Bool.and_eq_true, List.cons.injEq,
            jeq_iff x y, jeqList_iff xs ys]

theorem jeqFields_iff :
    ∀ fs gs : List (String × JVal), jeqFields fs gs = true ↔ fs = gs
  | [], gs => by cases gs <;> simp [jeqFields]
  | (k, v) :: fs, gs => by
      cases gs with
      | nil => simp [jeqFields]
      | cons g gs =>
          obtain ⟨k2, v2⟩ := g
          simp only [jeqFields, Bool.and_eq_true, List.cons.injEq, Prod.mk.injEq,
            beq_iff_eq, jeq_iff v v2, jeqFields_iff fs gs]

end

instance : DecidableEq JVal := fun a b =>
  decidable_of_iff (jeq a b = true) (jeq_iff a b)

/-- Python truthiness (`if x:`) for JSON-derived values: `None`, `False`,
`0`, `""`, `[]` and `{}` are falsy, everything else truthy. -/
def isTruthy : JVal → Bool
  | .null => false
  | .bool b => b
  | .num n => n != 0
  | .str s => !s.isEmpty
  | .arr xs => !xs.isEmpty
  | .obj fs => !fs.isEmpty

/-- Python `a or b` on JSON values: `a` if truthy, else `b`. -/
def pyOr (a b : JVal) : JVal := if isTruthy a then a else b

/-- `x or default` where `x` is `None`-or-a-JSON-value, as produced by
`_make_request(...) or []` in `app.py`. -/
def pyOrOpt (a : Option JVal) (d : JVal) : JVal :=
  match a with
  | none => d
  | some v => if isTruthy v then v else d

/-- First binding of a key in an association list (Python dicts coming
from JSON have unique keys, so first-match lookup is exact). -/
def jfind (fs : List (String × JVal)) (k : String) : Option JVal :=
  match fs with
  | [] => none
  | (k', v) :: rest => if k' = k then some v else jfind rest k

/-- Python `d.get(k, default)`; raises (`AttributeError`) when the
receiver is not a dict, exactly where `app.py` would. -/
def dictGet (v : JVal) (k : String) (d : JVal) : Except String JVal :=
  match v with
  | .obj fs => .ok ((jfind fs k).getD d)
  | _ => .error ("AttributeError: no attribute get: " ++ k)

/-- Python `d[k]` subscription: `KeyError` when the key is missing,
`TypeError` when the receiver is not a dict. -/
def dictIndex (v : JVal) (k : String) : Except String JVal :=
  match v with
  | .obj fs =>
      match jfind fs k with
      | some x => .ok x
      | none => .error ("KeyError: " ++ k)
  | _ => .error ("TypeError: not subscriptable: " ++ k)

/-- Python `k in d` membership test on a dict. -/
def hasKey (v : JVal) (k : String) : Except String Bool :=
  match v with
  | .obj fs => .ok ((jfind fs k).isSome)
  | _ => .error "TypeError: membership test on non-dict"

/-- Python `for x in v`: lists yield elements, strings yield one-character
strings, dicts yield their keys; other values raise `TypeError`. -/
def asIterList (v : JVal) : Except String (List JVal) :=
  match v with
  | .arr xs => .ok xs
  | .str s => .ok (s.data.map (fun c => JVal.str (String.singleton c)))
  | .obj fs => .ok (fs.map (fun f => JVal.str f.1))
  | _ => .error "TypeError: not iterable"

mutual

/-- Python `str(x)` as used by f-string interpolation of JSON-derived
values (only string payloads flow through f-strings in practice; the
rendering of the remaining cases matters to no claim). -/
def pyStr : JVal → String
  | .null => "None"
  | .bool b => if b then "True" else "False"
  | .num n => toString n
  | .str s => s
  | .arr xs => "[" ++ pyStrList xs ++ "]"
  | .obj fs => "\x7b" ++ pyStrFields fs ++ "\x7d"

def pyStrList : List JVal → String
  | [] => ""
  | [x] => pyStr x
  | x :: xs => pyStr x ++ ", " ++ pyStrList xs

def pyStrFields : List (String × JVal) → String
  | [] => ""
  | [(k, v)] => k ++ ": " ++ pyStr v
  | (k, v) :: fs => k ++ ": " ++ pyStr v ++ ", " ++ pyStrFields fs

end

/-- Python `', '.join(names)`: succeeds only when every element is a
string (`TypeError` otherwise, as in `app.py`'s join calls). -/
def joinComma (sep : String) : List JVal → Except String String
  | [] => .ok ""
  | [.str s] => .ok s
  | .str s :: rest =>
      match joinComma sep rest with
      | .ok r => .ok (s ++ sep ++ r)
      | .error e => .error e
  | _ => .error "TypeError: sequence item is not a string"

/-- Python slicing `v[:n]` as used on `action.get('date','')[:10]` and in
the fallback of the timestamp converter: strings and lists truncate,
anything else raises. -/
def sliceTake (v : JVal) (n : Nat) : Except String JVal :=
  match v with
  | .str s => .ok (.str (s.take n))
  | .arr xs => .ok (.arr (xs.take n))
  | _ => .error "TypeError: not subscriptable by slice"

/-! ## Calendar arithmetic (CPython `datetime`, proleptic Gregorian) -/

/-- Gregorian leap-year rule (CPython `datetime._is_leap`). -/
def isLeap (y : Nat) : Bool := (y % 4 == 0 && y % 100 != 0) || y % 400 == 0

/-- Days in a month (CPython `_days_in_month`). -/
def daysInMonth (y m : Nat) : Nat :=
  match m with
  | 1 => 31 | 2 => if isLeap y then 29 else 28 | 3 => 31 | 4 => 30
  | 5 => 31 | 6 => 30 | 7 => 31 | 8 => 31 | 9 => 30 | 10 => 31
  | 11 => 30 | 12 => 31 | _ => 0

/-- Days in year `y` before month `m` (CPython `_days_before_month`). -/
def daysBeforeMonth (y m : Nat) : Nat :=
  (match m with
   | 1 => 0 | 2 => 31 | 3 => 59 | 4 => 90 | 5 => 120 | 6 => 151
   | 7 => 181 | 8 => 212 | 9 => 243 | 10 => 273 | 11 => 304 | 12 => 334
   | _ => 0)
  + (if 3 ≤ m ∧ isLeap y then 1 else 0)

/-- Days before January 1 of year `y` (CPython `_days_before_year`). -/
def daysBeforeYear (y : Nat) : Nat :=
  (y - 1) * 365 + (y - 1) / 4 - (y - 1) / 100 + (y - 1) / 400

/-- `datetime.toordinal()`: day 1 is 0001-01-01. -/
def toordinal (y m d : Nat) : Nat := daysBeforeYear y + daysBeforeMonth y m + d

/-- `datetime.weekday()`: Monday is 0, Sunday is 6. -/
def pyWeekday (y m d : Nat) : Nat := (toordinal y m d + 6) % 7

/-- Ordinal back to (year, month, day) (CPython `_ord2ymd`). -/
def ord2ymd (nn : Nat) : Nat × Nat × Nat :=
  let n := nn - 1
  let n400 := n / 146097
  let n := n % 146097
  let n100 := n / 36524
  let n := n % 36524
  let n4 := n / 1461
  let n := n % 1461
  let n1 := n / 365
  let n := n % 365
  let year := n400 * 400 + 1 + n100 * 100 + n4 * 4 + n1
  if n1 = 4 ∨ n100 = 4 then (year - 1, 12, 31)
  else
    let month := (n + 50) / 32
    let preceding := daysBeforeMonth year month
    if preceding > n then (year, month - 1, n - daysBeforeMonth year (month - 1) + 1)
    else (year, month, n - preceding + 1)

/-- A naive (timezone-stripped) CPython datetime; `app.py` only ever
compares and offsets whole datetimes, so seconds granularity suffices. -/
structure PyDateTime where
  year : Nat
  month : Nat
  day : Nat
  hour : Nat
  minute : Nat
  second : Nat
  deriving DecidableEq

def PyDateTime.ordinal (dt : PyDateTime) : Nat := toordinal dt.year dt.month dt.day

def PyDateTime.daySecs (dt : PyDateTime) : Nat :=
  dt.hour * 3600 + dt.minute * 60 + dt.second

/-- Lexicographic `datetime` comparison `a <= b` on (ordinal, second-of-day). -/
def dtLe (a b : Nat × Nat) : Bool := a.1.blt b.1 || (a.1.beq b.1 && a.2.ble b.2)

/-- Lexicographic `datetime` comparison `a < b`. -/
def dtLt (a b : Nat × Nat) : Bool := a.1.blt b.1 || (a.1.beq b.1 && a.2.blt b.2)

/-- Digit-string to number. -/
def parseDigits (cs : List Char) : Option Nat :=
  if cs.all (fun c => c.isDigit) && !cs.isEmpty then
    some (cs.foldl (fun acc c => acc * 10 + (c.toNat - 48)) 0)
  else none

/-- Range validation done by the `datetime` constructor. -/
def mkDateTime (y mo d h mi s : Nat) : Option PyDateTime :=
  if 1 ≤ y ∧ y ≤ 9999 ∧ 1 ≤ mo ∧ mo ≤ 12 ∧ 1 ≤ d ∧ d ≤ daysInMonth y mo ∧
     h < 24 ∧ mi < 60 ∧ s < 60 then
    some ⟨y, mo, d, h, mi, s⟩
  else none

def parseIsoCore (y1 y2 y3 y4 o1 o2 d1 d2 h1 h2 i1 i2 s1 s2 : Char) :
    Option PyDateTime :=
  match parseDigits [y1, y2, y3, y4], parseDigits [o1, o2], parseDigits [d1, d2],
        parseDigits [h1, h2], parseDigits [i1, i2], parseDigits [s1, s2] with
  | some y, some mo, some d, some h, some mi, some s => mkDateTime y mo d h mi s
  | _, _, _, _, _, _ => none

/-- Allowed tails after the `YYYY-MM-DDTHH:MM:SS` prefix: nothing, the
`+00:00` the code substitutes for a trailing `Z`, and a fractional-second
part of exactly three or six digits (the two counts every CPython version
accepts; the upstream sends three, as in `...:00.000Z`) — optionally
followed by `+00:00`.  Fractional digits affect no observable output of
the converter (the midnight-boundary comparisons, the whole-hour shift
and the minute-level formatting all ignore them), so they are validated
and dropped. -/
def parseIsoSuffix : List Char → Bool
  | [] => true
  | ['+', '0', '0', ':', '0', '0'] => true
  | '.' :: frac =>
      match frac with
      | [f1, f2, f3] => f1.isDigit && f2.isDigit && f3.isDigit
      | [f1, f2, f3, '+', '0', '0', ':', '0', '0'] =>
          f1.isDigit && f2.isDigit && f3.isDigit
      | [f1, f2, f3, f4, f5, f6] =>
          f1.isDigit && f2.isDigit && f3.isDigit && f4.isDigit && f5.isDigit &&
            f6.isDigit
      | [f1, f2, f3, f4, f5, f6, '+', '0', '0', ':', '0', '0'] =>
          f1.isDigit && f2.isDigit && f3.isDigit && f4.isDigit && f5.isDigit &&
            f6.isDigit
      | _ => false
  | _ => false

/-- `datetime.fromisoformat` on the inputs the converter sees after its
`Z` replacement: a `YYYY-MM-DDTHH:MM:SS` prefix followed by a
`parseIsoSuffix` tail, which covers the upstream's `....000Z`
timestamps.  Shapes `fromisoformat` additionally accepts (date-only,
space separator, non-UTC offsets, other fractional-digit counts — the
last version-dependent) are modeled as parse failures and take the
converter's fallback; no claim exercises them. -/
def parseIsoUtc (s : String) : Option PyDateTime :=
  match s.data with
  | y1 :: y2 :: y3 :: y4 :: '-' :: o1 :: o2 :: '-' :: d1 :: d2 :: 'T' ::
    h1 :: h2 :: ':' :: i1 :: i2 :: ':' :: s1 :: s2 :: rest =>
      if parseIsoSuffix rest then
        parseIsoCore y1 y2 y3 y4 o1 o2 d1 d2 h1 h2 i1 i2 s1 s2
      else none
  | _ => none

/-- Ordinal of `datetime(year, 3, 8) + timedelta(days=(6 - datetime(year, 3,
8).weekday()) % 7 + 7)`, the DST window start computed by the code. -/
def dstStartOrd (year : Nat) : Nat :=
  toordinal year 3 8 + ((6 - pyWeekday year 3 8) % 7 + 7)

/-- Ordinal of `datetime(year, 11, 1) + timedelta(days=(6 - datetime(year,
11, 1).weekday()) % 7)`, the DST window end computed by the code. -/
def dstEndOrd (year : Nat) : Nat :=
  toordinal year 11 1 + ((6 - pyWeekday year 11 1) % 7)

/-- The branch test `dst_start <= parsed_date.replace(tzinfo=None) < dst_end`
(both boundaries are midnight datetimes of the parsed date's year). -/
def inDstWindow (dt : PyDateTime) : Bool :=
  dtLe (dstStartOrd dt.year, 0) (dt.ordinal, dt.daySecs) &&
  dtLt (dt.ordinal, dt.daySecs) (dstEndOrd dt.year, 0)

/-- Python `s.replace('Z', '+00:00')`: substitute every occurrence of the
one-character pattern. -/
def pyReplaceZ (s : String) : String :=
  String.mk (s.data.foldr
    (fun c acc =>
      if c = 'Z' then '+' :: '0' :: '0' :: ':' :: '0' :: '0' :: acc else c :: acc)
    [])

/-- Python `s.lstrip('0')`: drop every leading `'0'`. -/
def lstripZeros (s : String) : String :=
  String.mk (s.data.dropWhile (fun c => c == '0'))

def pad2 (n : Nat) : String := if n < 10 then "0" ++ toString n else toString n

/-- `central_time = parsed_date + offset` followed by the two `strftime`
calls and the `lstrip('0')`.  `datetime + timedelta` raises
`OverflowError` (modeled as `none`, to be caught by the converter's bare
`except`) exactly when the result would precede `datetime.min`, i.e.
when the datetime's total seconds fall short of `hoursBack` hours past
0001-01-01T00:00; the offsets are negative, so no upper overflow is
possible.  Otherwise: subtract `hoursBack` hours and format as
`%Y-%m-%d H:MM AM/PM LABEL` with the hour's leading zero stripped.
glibc `%Y` prints the year unpadded, as CPython does on the Linux
platforms the script deploys to; this differs from four-digit padding
only for years before 1000. -/
def applyOffsetFmt (dt : PyDateTime) (hoursBack : Nat) (label : String) :
    Option String :=
  if dt.ordinal * 86400 + dt.daySecs < hoursBack * 3600 + 86400 then none
  else
    let ts := dt.ordinal * 86400 + dt.daySecs - hoursBack * 3600
    let ymd := ord2ymd (ts / 86400)
    let r := ts % 86400
    let hh := r / 3600
    let mm := (r % 3600) / 60
    let hh12 := if hh % 12 = 0 then 12 else hh % 12
    let ampm := if hh < 12 then "AM" else "PM"
    let timeStr := lstripZeros (pad2 hh12 ++ ":" ++ pad2 mm ++ " " ++ ampm)
    some (toString ymd.1 ++ "-" ++ pad2 ymd.2.1 ++ "-" ++ pad2 ymd.2.2 ++ " " ++
      timeStr ++ " " ++ label)

/-- The except-branch of the converter:
`utc_datetime_str[:16] if len(utc_datetime_str) >= 16 else
utc_datetime_str`. -/
def convertFallback (utc_datetime_str : String) : String :=
  if utc_datetime_str.length ≥ 16 then utc_datetime_str.take 16
  else utc_datetime_str

/-- `convert_to_canada_central_time` from src/app.py: parse the UTC
timestamp (after replacing `Z` with `+00:00`), pick −5h/"CDT" inside the
computed DST window and −6h/"CST" outside, shift and format; the bare
`except` turns both a parse failure and an `OverflowError` from the
shift into the 16-character truncation fallback. -/
def convert_to_canada_central_time (utc_datetime_str : String) : String :=
  match parseIsoUtc (pyReplaceZ utc_datetime_str) with
  | some parsed_date =>
      match (if inDstWindow parsed_date then applyOffsetFmt parsed_date 5 "CDT"
             else applyOffsetFmt parsed_date 6 "CST") with
      | some formatted => formatted
      | none => convertFallback utc_datetime_str
  | none => convertFallback utc_datetime_str

/-! ## The Trello client and the /sync handler -/

/-- Outcome of one `requests.get`: either a raised exception (transport
error, bad JSON, ...; carrying `str(e)`) or an HTTP response with its
parsed JSON body. -/
inductive Outcome where
  | raise (msg : String)
  | resp (status : Nat) (body : JVal)

/-- The upstream Trello API as a deterministic oracle from endpoint to
outcome; "unchanged upstream data" of the spec corresponds to reusing
one `World` across invocations.  Credentials are query parameters, not
part of the path, so a rejected-credentials scenario is a `World` that
answers every endpoint with a non-200 status. -/
def World : Type := String → Outcome

/-- The two caches created by `TrelloAPI.__init__` (`member_cache`,
`list_cache`), keyed by identifier. -/
structure ApiState where
  member_cache : List (JVal × JVal)
  list_cache : List (JVal × JVal)
  deriving DecidableEq

/-- Cache/dict lookup (`k in d` plus `d[k]`). -/
def jlookup : List (JVal × JVal) → JVal → Option JVal
  | [], _ => none
  | (k, v) :: rest, k' => if k = k' then some v else jlookup rest k'

/-- Dict store `d[k] = v`: overwrite in place or append. -/
def jstore : List (JVal × JVal) → JVal → JVal → List (JVal × JVal)
  | [], k, v => [(k, v)]
  | (k0, v0) :: rest, k, v =>
      if k0 = k then (k, v) :: rest else (k0, v0) :: jstore rest k v

/-- `_make_request`: a non-200 status becomes `None`; a raised exception
propagates to the caller — there is no try/except inside the client. -/
def make_request (w : World) (endpoint : String) : Except String (Option JVal) :=
  match w endpoint with
  | .raise msg => .error msg
  | .resp status body => if status ≠ 200 then .ok none else .ok (some body)

/-- The `fullName or username or displayName or 'Unknown'` chain. -/
def memberNameChain (fs : List (String × JVal)) : JVal :=
  pyOr ((jfind fs "fullName").getD .null)
    (pyOr ((jfind fs "username").getD .null)
      (pyOr ((jfind fs "displayName").getD .null) (.str "Unknown")))

/-- `get_member_name`: cache hit short-circuits; a truthy response body
is read with the name-preference chain and cached (a non-dict truthy
body raises, as `member_data.get` would); a falsy body (failed request
included) yields `'Unknown'` uncached. -/
def get_member_name (w : World) (st : ApiState) (member_id : JVal) :
    Except String (JVal × ApiState) :=
  match jlookup st.member_cache member_id with
  | some name => .ok (name, st)
  | none =>
    match make_request w ("/members/" ++ pyStr member_id) with
    | .error e => .error e
    | .ok md? =>
      let member_data := md?.getD .null
      if isTruthy member_data then
        match member_data with
        | .obj fs =>
            let name := memberNameChain fs
            .ok (name, { st with member_cache := jstore st.member_cache member_id name })
        | _ => .error "AttributeError: no attribute get: fullName"
      else .ok (.str "Unknown", st)

/-- `get_list_name`: same cache/fallback pattern with `'Unknown List'`. -/
def get_list_name (w : World) (st : ApiState) (list_id : JVal) :
    Except String (JVal × ApiState) :=
  match jlookup st.list_cache list_id with
  | some name => .ok (name, st)
  | none =>
    match make_request w ("/lists/" ++ pyStr list_id) with
    | .error e => .error e
    | .ok ld? =>
      let list_data := ld?.getD .null
      if isTruthy list_data then
        match dictGet list_data "name" (.str "Unknown List") with
        | .error e => .error e
        | .ok name =>
            .ok (name, { st with list_cache := jstore st.list_cache list_id name })
      else .ok (.str "Unknown List", st)

/-- `get_all_boards`: `self._make_request('/members/me/boards') or []`. -/
def get_all_boards (w : World) : Except String JVal :=
  match make_request w "/members/me/boards" with
  | .error e => .error e
  | .ok r => .ok (pyOrOpt r (.arr []))

/-- The member loop of `get_board_members`: builds `member_lookup` and
write-through populates the shared member cache. -/
def board_members_loop (st : ApiState) (lookup : List (JVal × JVal)) :
    List JVal → Except String (List (JVal × JVal) × ApiState)
  | [] => .ok (lookup, st)
  | member :: rest =>
      match member with
      | .obj fs =>
          let member_id := (jfind fs "id").getD .null
          let member_name := memberNameChain fs
          board_members_loop
            { st with member_cache := jstore st.member_cache member_id member_name }
            (jstore lookup member_id member_name) rest
      | _ => .error "AttributeError: no attribute get: id"

/-- `get_board_members`. -/
def get_board_members (w : World) (st : ApiState) (board_id : JVal) :
    Except String (List (JVal × JVal) × ApiState) :=
  match make_request w ("/boards/" ++ pyStr board_id ++ "/members") with
  | .error e => .error e
  | .ok r =>
    match asIterList (pyOrOpt r (.arr [])) with
    | .error e => .error e
    | .ok members => board_members_loop st [] members

/-- `get_cards_on_board` (member and list expansion requested inline). -/
def get_cards_on_board (w : World) (board_id : JVal) : Except String JVal :=
  match make_request w
      ("/boards/" ++ pyStr board_id ++ "/cards?members=true&list=true") with
  | .error e => .error e
  | .ok r => .ok (pyOrOpt r (.arr []))

/-- The member loop of `get_card_members`:
`member.get('fullName') or member.get('username', 'Unknown')`. -/
def card_members_loop : List JVal → Except String (List JVal)
  | [] => .ok []
  | member :: rest =>
      match member with
      | .obj fs =>
          let name := pyOr ((jfind fs "fullName").getD .null)
            ((jfind fs "username").getD (.str "Unknown"))
          match card_members_loop rest with
          | .error e => .error e
          | .ok names => .ok (name :: names)
      | _ => .error "AttributeError: no attribute get: fullName"

/-- `get_card_members`: comma-join of the card's embedded member names,
empty string when there are none. -/
def get_card_members (card : JVal) : Except String String :=
  match dictGet card "members" (.arr []) with
  | .error e => .error e
  | .ok membersJ =>
    match asIterList membersJ with
    | .error e => .error e
    | .ok members =>
      match card_members_loop members with
      | .error e => .error e
      | .ok names =>
        if names.isEmpty then .ok "" else joinComma ", " names

/-- The action loop of `get_card_activity`: keep `commentCard` actions,
format each as `"<author> (<date>): <text>"`. -/
def card_activity_loop : List JVal → Except String (List String)
  | [] => .ok []
  | action :: rest =>
      match dictGet action "type" .null with
      | .error e => .error e
      | .ok t =>
        if t = .str "commentCard" then
          match dictGet action "data" (.obj []) with
          | .error e => .error e
          | .ok dataJ =>
          match dictGet dataJ "text" (.str "") with
          | .error e => .error e
          | .ok comment_text =>
          match dictGet action "memberCreator" (.obj []) with
          | .error e => .error e
          | .ok mc =>
          match dictGet mc "fullName" (.str "Unknown") with
          | .error e => .error e
          | .ok member_name =>
          match dictGet action "date" (.str "") with
          | .error e => .error e
          | .ok dateJ =>
          match sliceTake dateJ 10 with
          | .error e => .error e
          | .ok dateV =>
          match card_activity_loop rest with
          | .error e => .error e
          | .ok rest' =>
              .ok ((pyStr member_name ++ " (" ++ pyStr dateV ++ "): " ++
                pyStr comment_text) :: rest')
        else
          match card_activity_loop rest with
          | .error e => .error e
          | .ok rest' => .ok rest'

/-- `get_card_activity`: newline-join of the formatted comments, empty
string when there are none (or on a failed request). -/
def get_card_activity (w : World) (card_id : JVal) : Except String String :=
  match make_request w ("/cards/" ++ pyStr card_id ++ "/actions?filter=commentCard") with
  | .error e => .error e
  | .ok r =>
    match asIterList (pyOrOpt r (.arr [])) with
    | .error e => .error e
    | .ok actions =>
      match card_activity_loop actions with
      | .error e => .error e
      | .ok comments =>
        .ok (if comments.isEmpty then "" else String.intercalate "\n" comments)

/-- One flattened checklist item as built by
`get_checklist_items_detailed`. -/
structure ChecklistItem where
  name : JVal
  status : String
  assigned_to : String
  due_date : JVal
  deriving DecidableEq

/-- The converter applied to a truthy `item.get('due', '')` value.  A
string converts normally; the converter's exception fallback slices a
list input; any other truthy value raises (inside the fallback), as in
CPython. -/
def convertDue (due : JVal) : Except String JVal :=
  match due with
  | .str s => .ok (.str (convert_to_canada_central_time s))
  | .arr xs => .ok (.arr (xs.take 16))
  | .obj _ => .error "TypeError: unhashable type: slice"
  | _ => .error "TypeError: object has no len"

/-- `[member_lookup[a] for a in assignee_ids if a in member_lookup]`:
identifiers absent from the lookup are silently dropped. -/
def assignee_names_loop (member_lookup : List (JVal × JVal)) : List JVal → List JVal
  | [] => []
  | aid :: rest =>
      match jlookup member_lookup aid with
      | some n => n :: assignee_names_loop member_lookup rest
      | none => assignee_names_loop member_lookup rest

/-- The item loop of `get_checklist_items_detailed`. -/
def check_items_loop (member_lookup : List (JVal × JVal)) :
    List JVal → Except String (List ChecklistItem)
  | [] => .ok []
  | item :: rest =>
      match item with
      | .obj fs =>
          match jfind fs "name" with
          | none => .error "KeyError: name"
          | some item_name =>
          match jfind fs "state" with
          | none => .error "KeyError: state"
          | some stateJ =>
          let status := if stateJ = .str "complete" then "Complete" else "Pending"
          let idMembers := (jfind fs "idMembers").getD .null
          let idMember := (jfind fs "idMember").getD .null
          let assignee_ids : JVal :=
            if (jfind fs "idMembers").isSome ∧ isTruthy idMembers then idMembers
            else if (jfind fs "idMember").isSome ∧ isTruthy idMember then .arr [idMember]
            else .arr []
          let assignedR : Except String String :=
            if isTruthy assignee_ids then
              match asIterList assignee_ids with
              | .error e => .error e
              | .ok ids => joinComma ", " (assignee_names_loop member_lookup ids)
            else .ok ""
          match assignedR with
          | .error e => .error e
          | .ok assigned_to =>
          let due := (jfind fs "due").getD (.str "")
          match (if isTruthy due then convertDue due else .ok due) with
          | .error e => .error e
          | .ok due_date =>
          match check_items_loop member_lookup rest with
          | .error e => .error e
          | .ok rest' =>
              .ok ({ name := item_name, status := status, assigned_to := assigned_to,
                     due_date := due_date } :: rest')
      | _ => .error "TypeError: not subscriptable: name"

/-- The checklist loop of `get_checklist_items_detailed`. -/
def checklists_loop (member_lookup : List (JVal × JVal)) :
    List JVal → Except String (List ChecklistItem)
  | [] => .ok []
  | checklist :: rest =>
      match dictGet checklist "checkItems" (.arr []) with
      | .error e => .error e
      | .ok itemsJ =>
        match asIterList itemsJ with
        | .error e => .error e
        | .ok items =>
          match check_items_loop member_lookup items with
          | .error e => .error e
          | .ok these =>
            match checklists_loop member_lookup rest with
            | .error e => .error e
            | .ok others => .ok (these ++ others)

/-- `get_checklist_items_detailed`. -/
def get_checklist_items_detailed (w : World) (card_id : JVal)
    (member_lookup : List (JVal × JVal)) : Except String (List ChecklistItem) :=
  match make_request w ("/cards/" ++ pyStr card_id ++ "/checklists") with
  | .error e => .error e
  | .ok r =>
    match asIterList (pyOrOpt r (.arr [])) with
    | .error e => .error e
    | .ok cls => checklists_loop member_lookup cls

/-- The output unit appended to `all_tasks` for one checklist item. -/
structure TaskRecord where
  Client_Name : JVal
  Project_Name : JVal
  Status : JVal
  Assigned_To : String
  Step : JVal
  Step_Assigned_To : String
  Step_Status : String
  Due_Date : JVal
  Trello_Card_Link : JVal
  Comment : String
  Notes : String
  deriving DecidableEq

def taskToJVal (t : TaskRecord) : JVal :=
  .obj [("Client_Name", t.Client_Name), ("Project_Name", t.Project_Name),
        ("Status", t.Status), ("Assigned_To", .str t.Assigned_To),
        ("Step", t.Step), ("Step_Assigned_To", .str t.Step_Assigned_To),
        ("Step_Status", .str t.Step_Status), ("Due_Date", t.Due_Date),
        ("Trello_Card_Link", t.Trello_Card_Link), ("Comment", .str t.Comment),
        ("Notes", .str t.Notes)]

/-- The inline `list_name` resolution of the card loop: prefer a truthy
embedded `card['list']` summary, else a truthy `card.get('idList')`
resolved through `get_list_name`, else `'Unknown List'`. -/
def resolve_list_name (w : World) (card : JVal) (st : ApiState) :
    Except String (JVal × ApiState) :=
  match card with
  | .obj fs =>
      let lv? := jfind fs "list"
      if lv?.isSome && isTruthy (lv?.getD .null) then
        match dictGet (lv?.getD .null) "name" (.str "Unknown List") with
        | .error e => .error e
        | .ok n => .ok (n, st)
      else
        let idl := (jfind fs "idList").getD .null
        if isTruthy idl then get_list_name w st idl
        else .ok (.str "Unknown List", st)
  | _ => .error "TypeError: argument of type is not iterable"

/-- `processed_cards.add(card_id)` on the module-global set. -/
def insertProcessed (processed : List JVal) (cid : JVal) : List JVal :=
  if cid ∈ processed then processed else processed ++ [cid]

/-- The `task_record` dict built for one checklist item: card-level
fields repeated, `Step` fields from the item, `Notes` always empty. -/
def mkTaskRecord (board_name card_name list_name : JVal) (card_members : String)
    (card_url : JVal) (card_activity : String) (item : ChecklistItem) : TaskRecord :=
  { Client_Name := board_name, Project_Name := card_name, Status := list_name,
    Assigned_To := card_members, Step := item.name,
    Step_Assigned_To := item.assigned_to, Step_Status := item.status,
    Due_Date := item.due_date, Trello_Card_Link := card_url,
    Comment := card_activity, Notes := "" }

/-- The body of `sync_trello`'s per-card loop (extract `id`/`name`/
`shortUrl`, skip if already processed, resolve members, list name,
comments and checklist items, emit one record per item, then mark the
card processed).  Returns the records emitted for this card; the
`processed_cards` set is threaded through even on an exception, since
it is a module global in the source. -/
def processCard (w : World) (member_lookup : List (JVal × JVal)) (board_name : JVal)
    (card : JVal) (st : ApiState) (processed : List JVal) :
    Except String (List TaskRecord × ApiState) × List JVal :=
  match dictIndex card "id" with
  | .error e => (.error e, processed)
  | .ok card_id =>
  match dictIndex card "name" with
  | .error e => (.error e, processed)
  | .ok card_name =>
  match dictIndex card "shortUrl" with
  | .error e => (.error e, processed)
  | .ok card_url =>
  if card_id ∈ processed then (.ok ([], st), processed)
  else
  match get_card_members card with
  | .error e => (.error e, processed)
  | .ok card_members =>
  match resolve_list_name w card st with
  | .error e => (.error e, processed)
  | .ok (list_name, st1) =>
  match get_card_activity w card_id with
  | .error e => (.error e, processed)
  | .ok card_activity =>
  match get_checklist_items_detailed w card_id member_lookup with
  | .error e => (.error e, processed)
  | .ok checklist_items =>
  let recs : List TaskRecord := if checklist_items.isEmpty then [] else
    checklist_items.map
      (mkTaskRecord board_name card_name list_name card_members card_url card_activity)
  (.ok (recs, st1), insertProcessed processed card_id)

/-- The per-card loop over a board's active cards. -/
def processCards (w : World) (member_lookup : List (JVal × JVal)) (board_name : JVal) :
    List JVal → ApiState → List JVal →
    Except String (List TaskRecord × ApiState) × List JVal
  | [], st, processed => (.ok ([], st), processed)
  | card :: rest, st, processed =>
      match processCard w member_lookup board_name card st processed with
      | (.error e, p') => (.error e, p')
      | (.ok (recs, st'), p') =>
          match processCards w member_lookup board_name rest st' p' with
          | (.error e, p'') => (.error e, p'')
          | (.ok (recs', st''), p'') => (.ok (recs ++ recs', st''), p'')

/-- `[card for card in all_cards if not card.get('closed', False)]`. -/
def filterActive : List JVal → Except String (List JVal)
  | [] => .ok []
  | card :: rest =>
      match dictGet card "closed" (.bool false) with
      | .error e => .error e
      | .ok c =>
          match filterActive rest with
          | .error e => .error e
          | .ok rest' => .ok (if isTruthy c then rest' else card :: rest')

/-- The per-board loop of `sync_trello`. -/
def processBoards (w : World) :
    List JVal → ApiState → List JVal →
    Except String (List TaskRecord × ApiState) × List JVal
  | [], st, processed => (.ok ([], st), processed)
  | board :: rest, st, processed =>
      match dictIndex board "id" with
      | .error e => (.error e, processed)
      | .ok board_id =>
      match dictIndex board "name" with
      | .error e => (.error e, processed)
      | .ok board_name =>
      match get_board_members w st board_id with
      | .error e => (.error e, processed)
      | .ok (member_lookup, st1) =>
      match get_cards_on_board w board_id with
      | .error e => (.error e, processed)
      | .ok all_cardsJ =>
      match asIterList all_cardsJ with
      | .error e => (.error e, processed)
      | .ok all_cards =>
      match filterActive all_cards with
      | .error e => (.error e, processed)
      | .ok active_cards =>
      match processCards w member_lookup board_name active_cards st1 processed with
      | (.error e, p') => (.error e, p')
      | (.ok (recs, st2), p') =>
          match processBoards w rest st2 p' with
          | (.error e, p'') => (.error e, p'')
          | (.ok (recs', st3), p'') => (.ok (recs ++ recs', st3), p'')

/-- Result of the try-block of `sync_trello` short of HTTP encoding. -/
inductive SyncOut where
  | noBoards
  | found (tasks : List TaskRecord)
  deriving DecidableEq

/-- The try-block of `sync_trello` parameterized by the client state the
constructed `TrelloAPI` starts from: fetch boards, flatten every board.
The `processed_cards` module global is threaded in and out, also when
an exception escapes. -/
def syncCoreFrom (w : World) (st0 : ApiState) (processed : List JVal) :
    Except String SyncOut × List JVal :=
  match get_all_boards w with
  | .error e => (.error e, processed)
  | .ok boards =>
    if !isTruthy boards then (.ok .noBoards, processed)
    else
      match asIterList boards with
      | .error e => (.error e, processed)
      | .ok bs =>
        match processBoards w bs st0 processed with
        | (.error e, p') => (.error e, p')
        | (.ok (tasks, _), p') => (.ok (.found tasks), p')

/-- The try-block of `sync_trello`: `trello_api = TrelloAPI()` constructs
a fresh client, so every invocation starts from empty caches. -/
def syncCore (w : World) (processed : List JVal) : Except String SyncOut × List JVal :=
  syncCoreFrom w ⟨[], []⟩ processed

def errBody (msg : String) : JVal := .obj [("error", .str msg)]

def successBody (now : String) (tasks : List TaskRecord) : JVal :=
  .obj [("status", .str "success"), ("timestamp", .str now),
        ("total_tasks", .num tasks.length), ("tasks", .arr (tasks.map taskToJVal))]

/-- The `/sync` handler.  `key`/`token` model the module constants
`TRELLO_API_KEY`/`TRELLO_TOKEN` (an unset environment variable yields
the documented placeholder through `os.getenv`'s default, so "unset"
and "placeholder" coincide at the check); `now` models
`datetime.now().isoformat()`.  Returns the (HTTP status, JSON body)
pair and the module-global `processed_cards` set after the call. -/
def sync_trello (key token : String) (w : World) (now : String)
    (processed : List JVal) : (Nat × JVal) × List JVal :=
  if key = "your_api_key_here" ∨ token = "your_token_here" then
    ((400, errBody "API credentials not set"), processed)
  else
    match syncCore w processed with
    | (.error e, p') => ((500, errBody e), p')
    | (.ok .noBoards, p') => ((404, errBody "No boards found"), p')
    | (.ok (.found tasks), p') => ((200, successBody now tasks), p')

/-- Spec-side characterization: a day of March is its second Sunday
exactly when it is a Sunday whose day of month lies in 8..14 (the first
Sunday lies in 1..7). -/
def isSecondSundayOfMarch (y d : Nat) : Prop :=
  pyWeekday y 3 d = 6 ∧ 8 ≤ d ∧ d ≤ 14

/-- Spec-side characterization: a day of March is its third Sunday
exactly when it is a Sunday whose day of month lies in 15..21. -/
def isThirdSundayOfMarch (y d : Nat) : Prop :=
  pyWeekday y 3 d = 6 ∧ 15 ≤ d ∧ d ≤ 21

/-- Spec-side characterization: a day of November is its first Sunday
exactly when it is a Sunday whose day of month lies in 1..7. -/
def isFirstSundayOfNovember (y d : Nat) : Prop :=
  pyWeekday y 11 d = 6 ∧ 1 ≤ d ∧ d ≤ 7

instance (y d : Nat) : Decidable (isSecondSundayOfMarch y d) := by
  unfold isSecondSundayOfMarch; infer_instance

instance (y d : Nat) : Decidable (isThirdSundayOfMarch y d) := by
  unfold isThirdSundayOfMarch; infer_instance

instance (y d : Nat) : Decidable (isFirstSundayOfNovember y d) := by
  unfold isFirstSundayOfNovember; infer_instance


/-- A concrete minimal upstream world used by witnesses: one board `B`
with one card `c1` (in list `L`, one checklist item). -/
def cardOne : JVal :=
  .obj [("id", .str "c1"), ("name", .str "Card1"), ("shortUrl", .str "u1"),
        ("idList", .str "L")]

def wOne : World := fun e =>
  if e = "/members/me/boards" then
    .resp 200 (.arr [.obj [("id", .str "B"), ("name", .str "Board")]])
  else if e = "/boards/B/members" then .resp 200 (.arr [])
  else if e = "/boards/B/cards?members=true&list=true" then .resp 200 (.arr [cardOne])
  else if e = "/lists/L" then .resp 200 (.obj [("name", .str "Doing")])
  else if e = "/cards/c1/actions?filter=commentCard" then .resp 200 (.arr [])
  else if e = "/cards/c1/checklists" then .resp 200 (.arr
    [.obj [("checkItems", .arr
      [.obj [("name", .str "step1"), ("state", .str "complete")]])]])
  else .resp 404 .null

/-- Like `wOne` but card `c1` has no checklist at all. -/
def wOneNoChecklist : World := fun e =>
  if e = "/cards/c1/checklists" then .resp 200 (.arr []) else wOne e

/-- A later upstream state of the same account: the old card is gone, a
new card `c2` sits in the same list `L`, which upstream has renamed
from "Doing" to "Done". -/
def cardTwo : JVal :=
  .obj [("id", .str "c2"), ("name", .str "Card2"), ("shortUrl", .str "u2"),
        ("idList", .str "L")]

def wListB : World := fun e =>
  if e = "/members/me/boards" then
    .resp 200 (.arr [.obj [("id", .str "B"), ("name", .str "Board")]])
  else if e = "/boards/B/members" then .resp 200 (.arr [])
  else if e = "/boards/B/cards?members=true&list=true" then .resp 200 (.arr [cardTwo])
  else if e = "/lists/L" then .resp 200 (.obj [("name", .str "Done")])
  else if e = "/cards/c2/actions?filter=commentCard" then .resp 200 (.arr [])
  else if e = "/cards/c2/checklists" then .resp 200 (.arr
    [.obj [("checkItems", .arr
      [.obj [("name", .str "step2"), ("state", .str "incomplete")]])]])
  else .resp 404 .null


/-- World for the mid-pass failure scenario used by witnesses: card `cA`
processes fully (no checklists), then card `cB`'s comment fetch raises. -/
def cardA : JVal :=
  .obj [("id", .str "cA"), ("name", .str "CardA"), ("shortUrl", .str "uA")]

def cardB : JVal :=
  .obj [("id", .str "cB"), ("name", .str "CardB"), ("shortUrl", .str "uB")]

def wMidFail : World := fun e =>
  if e = "/members/me/boards" then
    .resp 200 (.arr [.obj [("id", .str "B"), ("name", .str "Board")]])
  else if e = "/boards/B/members" then .resp 200 (.arr [])
  else if e = "/boards/B/cards?members=true&list=true" then
    .resp 200 (.arr [cardA, cardB])
  else if e = "/cards/cA/actions?filter=commentCard" then .resp 200 (.arr [])
  else if e = "/cards/cA/checklists" then .resp 200 (.arr [])
  else if e = "/cards/cB/actions?filter=commentCard" then .raise "boom"
  else .resp 404 .null

/-! ## Theorems -/

/-- C1 counterexample: March 10, 2024 is the second Sunday of March 2024
and 2024-03-10T18:00 lies inside [second Sunday of March, first Sunday
of November), so the claim requires the −5h/"CDT" branch there — but
the code formats that timestamp with −6 hours and "CST": the window the
code uses does not start on the second Sunday of March. -/
theorem C1_second_sunday_counterexample :
    isSecondSundayOfMarch 2024 10 ∧
    isFirstSundayOfNovember 2024 3 ∧
    (toordinal 2024 3 10 ≤ toordinal 2024 3 10 ∧
      toordinal 2024 3 10 < toordinal 2024 11 3) ∧
    convert_to_canada_central_time "2024-03-10T18:00:00Z" =
      "2024-03-10 12:00 PM CST" := by
  refine ⟨by decide, by decide, by decide, by decide⟩

/-- C1 (amended): for every year the DST window used by
`convert_to_canada_central_time` starts on the THIRD Sunday of March
(the code takes the first Sunday on or after March 8 — already the
second Sunday — and adds seven more days) and ends on the first Sunday
of November; for every timestamp that parses, the function applies −5
hours with label "CDT" when the naive datetime lies in [start, end) and
−6 hours with label "CST" otherwise — except that when the shift would
precede `datetime.min` (year-1 timestamps within six, resp. five, hours
of 0001-01-01T00:00) the addition overflows and the bare `except`
yields the 16-character truncation fallback instead. -/
theorem C1_third_sunday_window (y : Nat) :
    (∃ d, isThirdSundayOfMarch y d ∧ dstStartOrd y = toordinal y 3 d) ∧
    (∃ d, isFirstSundayOfNovember y d ∧ dstEndOrd y = toordinal y 11 d) ∧
    (∀ (s : String) (dt : PyDateTime), parseIsoUtc (pyReplaceZ s) = some dt →
      (∀ out : String,
        (if inDstWindow dt then applyOffsetFmt dt 5 "CDT"
         else applyOffsetFmt dt 6 "CST") = some out →
        convert_to_canada_central_time s = out) ∧
      ((if inDstWindow dt then applyOffsetFmt dt 5 "CDT"
        else applyOffsetFmt dt 6 "CST") = none →
        convert_to_canada_central_time s = convertFallback s)) ∧
    (∀ (dt : PyDateTime) (hoursBack : Nat) (label : String),
      applyOffsetFmt dt hoursBack label = none ↔
        dt.ordinal * 86400 + dt.daySecs < hoursBack * 3600 + 86400) ∧
    (∀ dt : PyDateTime, inDstWindow dt = true ↔
      (dstStartOrd dt.year ≤ dt.ordinal ∧ dt.ordinal < dstEndOrd dt.year)) := by
  refine ⟨?_, ?_, ?_, ?_, ?_⟩
  · have hA : toordinal y 3 8 = (daysBeforeYear y + daysBeforeMonth y 3) + 8 := rfl
    set A := daysBeforeYear y + daysBeforeMonth y 3 with hAdef
    have hw : pyWeekday y 3 8 = (A + 8 + 6) % 7 := rfl
    refine ⟨21 - (A + 14) % 7, ⟨?_, ?_, ?_⟩, ?_⟩
    · show (toordinal y 3 (21 - (A + 14) % 7) + 6) % 7 = 6
      have ht : toordinal y 3 (21 - (A + 14) % 7) = A + (21 - (A + 14) % 7) := rfl
      rw [ht]; omega
    · omega
    · omega
    · show toordinal y 3 8 + ((6 - pyWeekday y 3 8) % 7 + 7) =
        toordinal y 3 (21 - (A + 14) % 7)
      have ht : toordinal y 3 (21 - (A + 14) % 7) = A + (21 - (A + 14) % 7) := rfl
      rw [hA, hw, ht]; omega
  · have hB : toordinal y 11 1 = (daysBeforeYear y + daysBeforeMonth y 11) + 1 := rfl
    set B := daysBeforeYear y + daysBeforeMonth y 11 with hBdef
    have hw : pyWeekday y 11 1 = (B + 1 + 6) % 7 := rfl
    refine ⟨7 - (B + 7) % 7, ⟨?_, ?_, ?_⟩, ?_⟩
    · show (toordinal y 11 (7 - (B + 7) % 7) + 6) % 7 = 6
      have ht : toordinal y 11 (7 - (B + 7) % 7) = B + (7 - (B + 7) % 7) := rfl
      rw [ht]; omega
    · omega
    · omega
    · show toordinal y 11 1 + (6 - pyWeekday y 11 1) % 7 =
        toordinal y 11 (7 - (B + 7) % 7)
      have ht : toordinal y 11 (7 - (B + 7) % 7) = B + (7 - (B + 7) % 7) := rfl
      rw [hB, hw, ht]; omega
  · intro s dt h
    constructor
    · intro out hout
      simp [convert_to_canada_central_time, h, hout]
    · intro hnone
      simp [convert_to_canada_central_time, h, hnone]
  · intro dt hoursBack label
    unfold applyOffsetFmt
    split
    next hlt => simp [hlt]
    next hge => simp [hge]
  · intro dt
    simp only [inDstWindow, dtLe, dtLt, Bool.and_eq_true, Bool.or_eq_true,
      Nat.blt_eq, Nat.ble_eq, Nat.beq_eq]
    omega

/-- C1 witness: the amended statement instantiated at year 2024, at the
in-window timestamp 2024-07-04T18:00:00Z, and at the overflowing
timestamp 0001-01-01T03:00:00Z, which takes the truncation fallback. -/
theorem C1_third_sunday_window_witness :
    (∃ d, isThirdSundayOfMarch 2024 d ∧ dstStartOrd 2024 = toordinal 2024 3 d) ∧
    convert_to_canada_central_time "2024-07-04T18:00:00Z" =
      "2024-07-04 1:00 PM CDT" ∧
    convert_to_canada_central_time "0001-01-01T03:00:00Z" =
      convertFallback "0001-01-01T03:00:00Z" ∧
    convertFallback "0001-01-01T03:00:00Z" = "0001-01-01T03:00" :=
  ⟨(C1_third_sunday_window 2024).1,
   ((C1_third_sunday_window 2024).2.2.1 "2024-07-04T18:00:00Z"
       ⟨2024, 7, 4, 18, 0, 0⟩ (by decide)).1 "2024-07-04 1:00 PM CDT" (by decide),
   ((C1_third_sunday_window 2024).2.2.1 "0001-01-01T03:00:00Z"
       ⟨1, 1, 1, 3, 0, 0⟩ (by decide)).2 (by decide),
   by decide⟩

/-- C8: the two documented example conversions of the timestamp
localizer, including the stripped leading zero of the hour. -/
theorem C8_localizer_examples :
    convert_to_canada_central_time "2024-07-04T18:00:00Z" =
      "2024-07-04 1:00 PM CDT" ∧
    convert_to_canada_central_time "2024-01-04T18:00:00Z" =
      "2024-01-04 12:00 PM CST" :=
  ⟨by decide, by decide⟩

/-- C7: with the API key or token unset-or-placeholder (an unset variable
yields the placeholder through `os.getenv`'s default), `/sync` responds
400 with body `{"error": "API credentials not set"}`, leaves the
processed set untouched, and its result does not depend on the upstream
world at all — no upstream request is made. -/
theorem C7_placeholder_credentials (key token : String) (w w' : World)
    (now : String) (processed : List JVal)
    (h : key = "your_api_key_here" ∨ token = "your_token_here") :
    sync_trello key token w now processed =
      ((400, errBody "API credentials not set"), processed) ∧
    sync_trello key token w now processed =
      sync_trello key token w' now processed := by
  refine ⟨?_, ?_⟩ <;> simp only [sync_trello, if_pos h]

/-- C7 witness: the placeholder key with two different upstream worlds
(one healthy, one raising). -/
theorem C7_placeholder_credentials_witness :
    sync_trello "your_api_key_here" "tok"
        (fun _ => .resp 200 (.arr [.obj [("id", .str "B"), ("name", .str "b")]]))
        "T0" [] =
      ((400, errBody "API credentials not set"), []) ∧
    sync_trello "your_api_key_here" "tok"
        (fun _ => .resp 200 (.arr [.obj [("id", .str "B"), ("name", .str "b")]]))
        "T0" [] =
      sync_trello "your_api_key_here" "tok" (fun _ => .raise "down") "T0" [] :=
  C7_placeholder_credentials "your_api_key_here" "tok"
    (fun _ => .resp 200 (.arr [.obj [("id", .str "B"), ("name", .str "b")]]))
    (fun _ => .raise "down") "T0" [] (Or.inl rfl)

/-- C10: with real-looking but upstream-rejected credentials (every
request answered with a non-200 status), `get_all_boards` returns the
empty sequence and `/sync` responds 404 `{"error": "No boards found"}` —
exactly the response of a healthy account with zero boards, so the two
are indistinguishable at the public interface. -/
theorem C10_auth_failure_indistinguishable (key token now : String) (w : World)
    (processed : List JVal)
    (hk : key ≠ "your_api_key_here") (ht : token ≠ "your_token_here")
    (hw : ∀ ep, ∃ code body, w ep = .resp code body ∧ code ≠ 200) :
    get_all_boards w = .ok (.arr []) ∧
    sync_trello key token w now processed =
      ((404, errBody "No boards found"), processed) ∧
    (∀ w' : World, w' "/members/me/boards" = .resp 200 (.arr []) →
      sync_trello key token w' now processed =
        ((404, errBody "No boards found"), processed)) := by
  have hb : get_all_boards w = .ok (.arr []) := by
    obtain ⟨c, b, hresp, hc⟩ := hw "/members/me/boards"
    simp [get_all_boards, make_request, hresp, hc, pyOrOpt]
  have hcore : syncCore w processed = (.ok .noBoards, processed) := by
    simp [syncCore, syncCoreFrom, hb, isTruthy]
  refine ⟨hb, by simp [sync_trello, hk, ht, hcore], ?_⟩
  intro w' hw'
  have hb' : get_all_boards w' = .ok (.arr []) := by
    simp [get_all_boards, make_request, hw', pyOrOpt]
  have hcore' : syncCore w' processed = (.ok .noBoards, processed) := by
    simp [syncCore, syncCoreFrom, hb', isTruthy]
  simp [sync_trello, hk, ht, hcore']

/-- C10 witness: a world rejecting everything with 401 versus a healthy
world with zero boards. -/
theorem C10_auth_failure_indistinguishable_witness :
    get_all_boards (fun _ => .resp 401 (.obj [("message", .str "invalid key")])) =
      .ok (.arr []) ∧
    sync_trello "realkey" "realtok"
        (fun _ => .resp 401 (.obj [("message", .str "invalid key")])) "T0" [] =
      ((404, errBody "No boards found"), []) ∧
    sync_trello "realkey" "realtok" (fun _ => .resp 200 (.arr [])) "T0" [] =
      ((404, errBody "No boards found"), []) := by
  have h := C10_auth_failure_indistinguishable "realkey" "realtok" "T0"
    (fun _ => .resp 401 (.obj [("message", .str "invalid key")])) []
    (by decide) (by decide)
    (fun ep => ⟨401, .obj [("message", .str "invalid key")], rfl, by decide⟩)
  exact ⟨h.1, h.2.1, h.2.2 (fun _ => .resp 200 (.arr [])) rfl⟩

/-- C2 counterexample: with credentials set and an upstream world whose
very first (and only) call raises a transport error, the flatten pass
itself fails — `/sync` returns 500 carrying the exception text — so a
raised exception is NOT swallowed inside the client and replaced by a
neutral default, contradicting the claim. -/
theorem C2_exception_not_swallowed_counterexample :
    sync_trello "k" "t" (fun _ => .raise "ConnectionError: unreachable") "T0" [] =
      ((500, errBody "ConnectionError: unreachable"), []) := by decide

/-- C2 (amended): every upstream call made through the client swallows a
non-success HTTP status and substitutes its neutral default (`None` at
`_make_request`, hence `[]`, empty lookup, `'Unknown'`,
`'Unknown List'`, `''` or no items at the callers); a raised exception,
however, is not swallowed in the client: `_make_request` propagates it,
and it aborts the whole flatten pass, surfacing as the handler's
generic 500 response. -/
theorem C2_nonsuccess_swallowed_exceptions_propagate :
    (∀ (w : World) (ep msg : String), w ep = .raise msg →
      make_request w ep = .error msg) ∧
    (∀ (w : World) (code : Nat) (body : JVal), code ≠ 200 →
      w "/members/me/boards" = .resp code body →
      get_all_boards w = .ok (.arr [])) ∧
    (∀ (w : World) (st : ApiState) (bid : JVal) (code : Nat) (body : JVal),
      code ≠ 200 → w ("/boards/" ++ pyStr bid ++ "/members") = .resp code body →
      get_board_members w st bid = .ok ([], st)) ∧
    (∀ (w : World) (bid : JVal) (code : Nat) (body : JVal), code ≠ 200 →
      w ("/boards/" ++ pyStr bid ++ "/cards?members=true&list=true") = .resp code body →
      get_cards_on_board w bid = .ok (.arr [])) ∧
    (∀ (w : World) (st : ApiState) (mid : JVal) (code : Nat) (body : JVal),
      jlookup st.member_cache mid = none → code ≠ 200 →
      w ("/members/" ++ pyStr mid) = .resp code body →
      get_member_name w st mid = .ok (.str "Unknown", st)) ∧
    (∀ (w : World) (st : ApiState) (lid : JVal) (code : Nat) (body : JVal),
      jlookup st.list_cache lid = none → code ≠ 200 →
      w ("/lists/" ++ pyStr lid) = .resp code body →
      get_list_name w st lid = .ok (.str "Unknown List", st)) ∧
    (∀ (w : World) (cid : JVal) (code : Nat) (body : JVal), code ≠ 200 →
      w ("/cards/" ++ pyStr cid ++ "/actions?filter=commentCard") = .resp code body →
      get_card_activity w cid = .ok "") ∧
    (∀ (w : World) (cid : JVal) (lu : List (JVal × JVal)) (code : Nat) (body : JVal),
      code ≠ 200 → w ("/cards/" ++ pyStr cid ++ "/checklists") = .resp code body →
      get_checklist_items_detailed w cid lu = .ok []) ∧
    (∀ (key token now : String) (w : World) (p : List JVal) (msg : String),
      key ≠ "your_api_key_here" → token ≠ "your_token_here" →
      w "/members/me/boards" = .raise msg →
      sync_trello key token w now p = ((500, errBody msg), p)) := by
  refine ⟨?_, ?_, ?_, ?_, ?_, ?_, ?_, ?_, ?_⟩
  · intro w ep msg h; simp [make_request, h]
  · intro w code body hc h; simp [get_all_boards, make_request, h, hc, pyOrOpt]
  · intro w st bid code body hc h
    simp [get_board_members, make_request, h, hc, pyOrOpt, asIterList,
      board_members_loop]
  · intro w bid code body hc h
    simp [get_cards_on_board, make_request, h, hc, pyOrOpt]
  · intro w st mid code body hcache hc h
    simp [get_member_name, hcache, make_request, h, hc, isTruthy]
  · intro w st lid code body hcache hc h
    simp [get_list_name, hcache, make_request, h, hc, isTruthy]
  · intro w cid code body hc h
    simp [get_card_activity, make_request, h, hc, pyOrOpt, asIterList,
      card_activity_loop]
  · intro w cid lu code body hc h
    simp [get_checklist_items_detailed, make_request, h, hc, pyOrOpt, asIterList,
      checklists_loop]
  · intro key token now w p msg hk ht h
    simp [sync_trello, hk, ht, syncCore, syncCoreFrom, get_all_boards, make_request, h]

/-- C2 witness: the amended statement instantiated — a 500-status world
leaves `get_all_boards` empty, and a raising world aborts `/sync` with
a 500. -/
theorem C2_nonsuccess_swallowed_exceptions_propagate_witness :
    get_all_boards (fun _ => .resp 500 .null) = .ok (.arr []) ∧
    sync_trello "k" "t" (fun _ => .raise "boom") "T0" [] =
      ((500, errBody "boom"), []) :=
  ⟨C2_nonsuccess_swallowed_exceptions_propagate.2.1 (fun _ => .resp 500 .null)
      500 .null (by decide) rfl,
   C2_nonsuccess_swallowed_exceptions_propagate.2.2.2.2.2.2.2.2 "k" "t" "T0"
      (fun _ => .raise "boom") [] "boom" (by decide) (by decide) rfl⟩

/-- `card_id ∈ processed_cards` always holds right after
`processed_cards.add(card_id)`. -/
theorem mem_insertProcessed (p : List JVal) (cid : JVal) :
    cid ∈ insertProcessed p cid := by
  unfold insertProcessed
  split
  · assumption
  · simp

/-- C4: for a non-archived, not-yet-processed card whose lookups succeed
and whose checklist has at least one item, the card loop emits exactly
one TaskRecord per checklist item, and the card-level fields
Client_Name, Project_Name, Status, Assigned_To, Trello_Card_Link and
Comment are identical (to the card's resolved values) across all of the
card's records. -/
theorem C4_one_record_per_item (w : World) (lu : List (JVal × JVal))
    (bn card cid cn cu : JVal) (st st1 : ApiState) (processed : List JVal)
    (ln : JVal) (cm act : String) (items : List ChecklistItem)
    (hid : dictIndex card "id" = .ok cid)
    (hname : dictIndex card "name" = .ok cn)
    (hurl : dictIndex card "shortUrl" = .ok cu)
    (hnew : cid ∉ processed)
    (hmem : get_card_members card = .ok cm)
    (hlist : resolve_list_name w card st = .ok (ln, st1))
    (hact : get_card_activity w cid = .ok act)
    (hitems : get_checklist_items_detailed w cid lu = .ok items)
    (hne : items ≠ []) :
    ∃ recs, processCard w lu bn card st processed =
        (.ok (recs, st1), insertProcessed processed cid) ∧
      recs.length = items.length ∧
      ∀ r ∈ recs, ∀ r' ∈ recs,
        r.Client_Name = bn ∧ r.Project_Name = cn ∧ r.Status = ln ∧
        r.Assigned_To = cm ∧ r.Trello_Card_Link = cu ∧ r.Comment = act ∧
        r.Client_Name = r'.Client_Name ∧ r.Project_Name = r'.Project_Name ∧
        r.Status = r'.Status ∧ r.Assigned_To = r'.Assigned_To ∧
        r.Trello_Card_Link = r'.Trello_Card_Link ∧ r.Comment = r'.Comment := by
  refine ⟨items.map (mkTaskRecord bn cn ln cm cu act), ?_, ?_, ?_⟩
  · have hemp : items.isEmpty = false := by
      cases items with
      | nil => exact absurd rfl hne
      | cons a l => rfl
    simp [processCard, hid, hname, hurl, hnew, hmem, hlist, hact, hitems, hemp]
  · simp
  · intro r hr r' hr'
    obtain ⟨item, _, rfl⟩ := List.mem_map.mp hr
    obtain ⟨item', _, rfl⟩ := List.mem_map.mp hr'
    simp [mkTaskRecord]

/-- C4 witness: the per-card statement instantiated on a concrete world
with one card holding one checklist item. -/
theorem C4_one_record_per_item_witness :
    ∃ recs, processCard wOne [] (.str "Board") cardOne ⟨[], []⟩ [] =
        (.ok (recs, ⟨[], [(.str "L", .str "Doing")]⟩),
          insertProcessed [] (.str "c1")) ∧
      recs.length = [(⟨.str "step1", "Complete", "", .str ""⟩ : ChecklistItem)].length ∧
      ∀ r ∈ recs, ∀ r' ∈ recs,
        r.Client_Name = .str "Board" ∧ r.Project_Name = .str "Card1" ∧
        r.Status = .str "Doing" ∧ r.Assigned_To = "" ∧
        r.Trello_Card_Link = .str "u1" ∧ r.Comment = "" ∧
        r.Client_Name = r'.Client_Name ∧ r.Project_Name = r'.Project_Name ∧
        r.Status = r'.Status ∧ r.Assigned_To = r'.Assigned_To ∧
        r.Trello_Card_Link = r'.Trello_Card_Link ∧ r.Comment = r'.Comment :=
  C4_one_record_per_item wOne [] (.str "Board") cardOne (.str "c1") (.str "Card1")
    (.str "u1") ⟨[], []⟩ ⟨[], [(.str "L", .str "Doing")]⟩ [] (.str "Doing") "" ""
    [⟨.str "step1", "Complete", "", .str ""⟩]
    (by decide) (by decide) (by decide) (by decide) (by decide) (by decide)
    (by decide) (by decide) (by decide)

/-- C5: a non-archived, not-yet-processed card with zero checklist items
produces no TaskRecord, yet its identifier is still added to the
processed set through the very same `processed_cards.add` as for
emitting cards. -/
theorem C5_checklistless_card (w : World) (lu : List (JVal × JVal))
    (bn card cid cn cu : JVal) (st st1 : ApiState) (processed : List JVal)
    (ln : JVal) (cm act : String)
    (hid : dictIndex card "id" = .ok cid)
    (hname : dictIndex card "name" = .ok cn)
    (hurl : dictIndex card "shortUrl" = .ok cu)
    (hnew : cid ∉ processed)
    (hmem : get_card_members card = .ok cm)
    (hlist : resolve_list_name w card st = .ok (ln, st1))
    (hact : get_card_activity w cid = .ok act)
    (hitems : get_checklist_items_detailed w cid lu = .ok []) :
    processCard w lu bn card st processed =
      (.ok ([], st1), insertProcessed processed cid) ∧
    cid ∈ insertProcessed processed cid := by
  refine ⟨?_, mem_insertProcessed processed cid⟩
  simp [processCard, hid, hname, hurl, hnew, hmem, hlist, hact, hitems]

/-- C5 witness: the same concrete card with its checklist endpoint
returning no checklists. -/
theorem C5_checklistless_card_witness :
    processCard wOneNoChecklist [] (.str "Board") cardOne ⟨[], []⟩ [] =
      (.ok ([], ⟨[], [(.str "L", .str "Doing")]⟩), insertProcessed [] (.str "c1")) ∧
    JVal.str "c1" ∈ insertProcessed [] (.str "c1") :=
  C5_checklistless_card wOneNoChecklist [] (.str "Board") cardOne (.str "c1")
    (.str "Card1") (.str "u1") ⟨[], []⟩ ⟨[], [(.str "L", .str "Doing")]⟩ []
    (.str "Doing") "" ""
    (by decide) (by decide) (by decide) (by decide) (by decide) (by decide)
    (by decide) (by decide)

/-- C3 counterexample: request 1 over `wOne` resolves list `L` to
"Doing" (and caches it inside that request's fresh client); request 2 of
the same process, over an upstream that has renamed `L` to "Done" and
shows a new card `c2`, emits a record with Status "Done" — yet a
persisted-and-consulted-first list cache (final conjunct) would have
answered "Doing" without fetching.  The member/list caches therefore do
not persist across `/sync` invocations; a fresh `TrelloAPI` with empty
caches is built per request. -/
theorem C3_fresh_caches_counterexample :
    sync_trello "k" "t" wOne "T0" [] =
      ((200, successBody "T0"
        [mkTaskRecord (.str "Board") (.str "Card1") (.str "Doing") "" (.str "u1") ""
          ⟨.str "step1", "Complete", "", .str ""⟩]), [.str "c1"]) ∧
    sync_trello "k" "t" wListB "T1" [.str "c1"] =
      ((200, successBody "T1"
        [mkTaskRecord (.str "Board") (.str "Card2") (.str "Done") "" (.str "u2") ""
          ⟨.str "step2", "Pending", "", .str ""⟩]), [.str "c1", .str "c2"]) ∧
    (mkTaskRecord (.str "Board") (.str "Card2") (.str "Done") "" (.str "u2") ""
      ⟨.str "step2", "Pending", "", .str ""⟩).Status = .str "Done" ∧
    get_list_name wListB ⟨[], [(.str "L", .str "Doing")]⟩ (.str "L") =
      .ok (.str "Doing", ⟨[], [(.str "L", .str "Doing")]⟩) :=
  ⟨by decide, by decide, by decide, by decide⟩

/-- C3 (amended): the member and list name caches are consulted before
any fetch and never invalidated *within* one `/sync` invocation (a
cache hit returns the cached name, unchanged state, and is independent
of the upstream world), but they do not persist across invocations:
every invocation's try-block runs from a freshly constructed client
with empty caches, and only the processed-cards set is carried over. -/
theorem C3_caches_per_invocation :
    (∀ (w w' : World) (st : ApiState) (lid nm : JVal),
      jlookup st.list_cache lid = some nm →
      get_list_name w st lid = .ok (nm, st) ∧
      get_list_name w st lid = get_list_name w' st lid) ∧
    (∀ (w w' : World) (st : ApiState) (mid nm : JVal),
      jlookup st.member_cache mid = some nm →
      get_member_name w st mid = .ok (nm, st) ∧
      get_member_name w st mid = get_member_name w' st mid) ∧
    (∀ (w : World) (p : List JVal), syncCore w p = syncCoreFrom w ⟨[], []⟩ p) := by
  refine ⟨?_, ?_, fun w p => rfl⟩
  · intro w w' st lid nm h
    constructor <;> simp [get_list_name, h]
  · intro w w' st mid nm h
    constructor <;> simp [get_member_name, h]

/-- C3 witness: a cache hit served with no fetch even over a world that
would raise on any request, and a concrete invocation starting from the
empty caches. -/
theorem C3_caches_per_invocation_witness :
    get_list_name (fun _ => .raise "down") ⟨[], [(.str "L", .str "Doing")]⟩
        (.str "L") =
      .ok (.str "Doing", ⟨[], [(.str "L", .str "Doing")]⟩) ∧
    syncCore (fun _ => .resp 200 (.arr [])) [] =
      syncCoreFrom (fun _ => .resp 200 (.arr [])) ⟨[], []⟩ [] :=
  ⟨(C3_caches_per_invocation.1 (fun _ => .raise "down") (fun _ => .raise "down")
      ⟨[], [(.str "L", .str "Doing")]⟩ (.str "L") (.str "Doing") (by decide)).1,
   C3_caches_per_invocation.2.2 (fun _ => .resp 200 (.arr [])) []⟩

/-- The processed set only grows under `processed_cards.add`. -/
theorem subset_insertProcessed (p : List JVal) (cid : JVal) :
    p ⊆ insertProcessed p cid := by
  unfold insertProcessed
  split
  · exact fun x h => h
  · exact fun x h => List.mem_append_left _ h

/-- One card-loop iteration only grows the processed set. -/
theorem processCard_mono (w : World) (lu : List (JVal × JVal)) (bn card : JVal)
    (st : ApiState) (p : List JVal) :
    p ⊆ (processCard w lu bn card st p).2 := by
  unfold processCard
  repeat' split
  all_goals first
    | exact fun x h => h
    | exact subset_insertProcessed p _

/-- A card whose identifier is already in the processed set is skipped:
no records, no state change, no set change (the `continue` at lines
218-219, reached after the three `card[...]` subscriptions). -/
theorem processCard_skip (w : World) (lu : List (JVal × JVal))
    (bn card cid cn cu : JVal) (st : ApiState) (q : List JVal)
    (hid : dictIndex card "id" = .ok cid)
    (hname : dictIndex card "name" = .ok cn)
    (hurl : dictIndex card "shortUrl" = .ok cu)
    (hmem : cid ∈ q) :
    processCard w lu bn card st q = (.ok ([], st), q) := by
  simp [processCard, hid, hname, hurl, hmem]

/-- A successfully completed card-loop iteration had successful
`id`/`name`/`shortUrl` subscriptions, and afterwards the card's
identifier is in the processed set. -/
theorem processCard_ok_extract (w : World) (lu : List (JVal × JVal))
    (bn card : JVal) (st : ApiState) (p : List JVal) (recs : List TaskRecord)
    (st2 : ApiState) (p2 : List JVal)
    (h : processCard w lu bn card st p = (.ok (recs, st2), p2)) :
    ∃ cid cn cu, dictIndex card "id" = .ok cid ∧ dictIndex card "name" = .ok cn ∧
      dictIndex card "shortUrl" = .ok cu ∧ cid ∈ p2 := by
  unfold processCard at h
  split at h
  · exact absurd h (by simp)
  next cid hid =>
    split at h
    · exact absurd h (by simp)
    next cn hname =>
      split at h
      · exact absurd h (by simp)
      next cu hurl =>
        refine ⟨cid, cn, cu, hid, hname, hurl, ?_⟩
        split at h
        next hin =>
          have hp : p = p2 := congrArg Prod.snd h
          exact hp ▸ hin
        next hnotin =>
          split at h
          · exact absurd h (by simp)
          next cm hcm =>
            split at h
            · exact absurd h (by simp)
            next pr hres =>
              obtain ⟨ln, st1⟩ := pr
              split at h
              · exact absurd h (by simp)
              next act hact =>
                split at h
                · exact absurd h (by simp)
                next items hitems =>
                  have hp : insertProcessed p cid = p2 := congrArg Prod.snd h
                  exact hp ▸ mem_insertProcessed p cid

/-- The card loop only grows the processed set. -/
theorem processCards_mono (w : World) (lu : List (JVal × JVal)) (bn : JVal) :
    ∀ (cards : List JVal) (st : ApiState) (p : List JVal),
      p ⊆ (processCards w lu bn cards st p).2 := by
  intro cards
  induction cards with
  | nil => intro st p; exact fun x h => h
  | cons c cs ih =>
      intro st p
      rcases hpc : processCard w lu bn c st p with ⟨r, p1⟩
      have h1 : p ⊆ p1 := by
        have hm := processCard_mono w lu bn c st p
        rw [hpc] at hm
        exact hm
      cases r with
      | error e => simp only [processCards, hpc]; exact h1
      | ok v =>
          obtain ⟨recs, st1⟩ := v
          rcases hrest : processCards w lu bn cs st1 p1 with ⟨r2, p2⟩
          have h2 : p1 ⊆ p2 := by
            have hm := ih st1 p1
            rw [hrest] at hm
            exact hm
          cases r2 with
          | error e => simp only [processCards, hpc, hrest]; exact h1.trans h2
          | ok v2 =>
              obtain ⟨recs2, st2⟩ := v2
              simp only [processCards, hpc, hrest]
              exact h1.trans h2

/-- After a successful card loop, every card of the list had successful
`id`/`name`/`shortUrl` subscriptions and its identifier is in the
resulting processed set. -/
theorem processCards_ok_ids (w : World) (lu : List (JVal × JVal)) (bn : JVal) :
    ∀ (cards : List JVal) (st : ApiState) (p : List JVal) (recs : List TaskRecord)
      (st' : ApiState) (p' : List JVal),
      processCards w lu bn cards st p = (.ok (recs, st'), p') →
      ∀ card ∈ cards, ∃ cid cn cu,
        dictIndex card "id" = .ok cid ∧ dictIndex card "name" = .ok cn ∧
        dictIndex card "shortUrl" = .ok cu ∧ cid ∈ p' := by
  intro cards
  induction cards with
  | nil =>
      intro st p recs st' p' h card hc
      exact absurd hc (by simp)
  | cons c cs ih =>
      intro st p recs st' p' h card hc
      rcases hpc : processCard w lu bn c st p with ⟨r, p1⟩
      cases r with
      | error e => simp only [processCards, hpc] at h; exact absurd h (by simp)
      | ok v =>
          obtain ⟨recs1, st1⟩ := v
          rcases hrest : processCards w lu bn cs st1 p1 with ⟨r2, p2⟩
          cases r2 with
          | error e =>
              simp only [processCards, hpc, hrest] at h
              exact absurd h (by simp)
          | ok v2 =>
              obtain ⟨recs2, st2⟩ := v2
              simp only [processCards, hpc, hrest] at h
              have hp2 : p2 = p' := congrArg Prod.snd h
              rcases List.mem_cons.mp hc with hceq | hcs
              · subst hceq
                obtain ⟨cid, cn, cu, hid, hn, hu, hin⟩ :=
                  processCard_ok_extract w lu bn card st p recs1 st1 p1 hpc
                have hsub : p1 ⊆ p2 := by
                  have hm := processCards_mono w lu bn cs st1 p1
                  rw [hrest] at hm
                  exact hm
                exact ⟨cid, cn, cu, hid, hn, hu, hp2 ▸ hsub hin⟩
              · exact hp2 ▸ ih st1 p1 recs2 st2 p2 hrest card hcs

/-- When every card's identifier is already processed (and the three
subscriptions succeed, as they did when the card was first seen), the
card loop emits nothing and changes nothing. -/
theorem processCards_all_skipped (w : World) (lu : List (JVal × JVal)) (bn : JVal) :
    ∀ (cards : List JVal) (st : ApiState) (q : List JVal),
      (∀ card ∈ cards, ∃ cid cn cu,
        dictIndex card "id" = .ok cid ∧ dictIndex card "name" = .ok cn ∧
        dictIndex card "shortUrl" = .ok cu ∧ cid ∈ q) →
      processCards w lu bn cards st q = (.ok ([], st), q) := by
  intro cards
  induction cards with
  | nil => intro st q _; rfl
  | cons c cs ih =>
      intro st q h
      obtain ⟨cid, cn, cu, hid, hn, hu, hq⟩ := h c (by simp)
      have hskip := processCard_skip w lu bn c cid cn cu st q hid hn hu hq
      have hrest := ih st q (fun card hc => h card (List.mem_cons_of_mem c hc))
      simp only [processCards, hskip, hrest, List.nil_append]

/-- The member lookup built by `get_board_members` does not depend on the
client's cache state (the loop only writes the member cache). -/
theorem board_members_loop_lookup (ms : List JVal) :
    ∀ (lu : List (JVal × JVal)) (st st2 : ApiState) (lu' : List (JVal × JVal))
      (st' : ApiState),
      board_members_loop st lu ms = .ok (lu', st') →
      ∃ st2', board_members_loop st2 lu ms = .ok (lu', st2') := by
  induction ms with
  | nil =>
      intro lu st st2 lu' st' h
      simp only [board_members_loop, Except.ok.injEq, Prod.mk.injEq] at h
      exact ⟨st2, by simp [board_members_loop, h.1]⟩
  | cons m ms ih =>
      intro lu st st2 lu' st' h
      cases m with
      | obj fs =>
          simp only [board_members_loop] at h ⊢
          exact ih _ _ _ _ _ h
      | null => exact absurd h (by simp [board_members_loop])
      | bool b => exact absurd h (by simp [board_members_loop])
      | num n => exact absurd h (by simp [board_members_loop])
      | str s => exact absurd h (by simp [board_members_loop])
      | arr xs => exact absurd h (by simp [board_members_loop])

/-- `get_board_members` yields the same lookup from any initial client
state. -/
theorem get_board_members_lookup (w : World) (st st2 : ApiState) (bid : JVal)
    (lu : List (JVal × JVal)) (st' : ApiState)
    (h : get_board_members w st bid = .ok (lu, st')) :
    ∃ st2', get_board_members w st2 bid = .ok (lu, st2') := by
  unfold get_board_members at h ⊢
  rcases hr : make_request w ("/boards/" ++ pyStr bid ++ "/members") with e | r
  · rw [hr] at h; exact absurd h (by simp)
  · simp only [hr] at h ⊢
    rcases hi : asIterList (pyOrOpt r (.arr [])) with e | members
    · rw [hi] at h; exact absurd h (by simp)
    · simp only [hi] at h ⊢
      exact board_members_loop_lookup members [] st st2 lu st' h

/-- The board loop only grows the processed set, also when it aborts
with an exception. -/
theorem processBoards_mono (w : World) :
    ∀ (bs : List JVal) (st : ApiState) (p : List JVal),
      p ⊆ (processBoards w bs st p).2 := by
  intro bs
  induction bs with
  | nil => intro st p; exact fun x h => h
  | cons b bs ih =>
      intro st p
      rcases h1 : dictIndex b "id" with e1 | bid
      · simp only [processBoards, h1]; exact fun x h => h
      rcases h2 : dictIndex b "name" with e2 | bn
      · simp only [processBoards, h1, h2]; exact fun x h => h
      rcases h3 : get_board_members w st bid with e3 | lust
      · simp only [processBoards, h1, h2, h3]; exact fun x h => h
      obtain ⟨lu, st1⟩ := lust
      rcases h4 : get_cards_on_board w bid with e4 | cardsJ
      · simp only [processBoards, h1, h2, h3, h4]; exact fun x h => h
      rcases h5 : asIterList cardsJ with e5 | all_cards
      · simp only [processBoards, h1, h2, h3, h4, h5]; exact fun x h => h
      rcases h6 : filterActive all_cards with e6 | active
      · simp only [processBoards, h1, h2, h3, h4, h5, h6]; exact fun x h => h
      rcases h7 : processCards w lu bn active st1 p with ⟨r7, p1⟩
      have hm1 : p ⊆ p1 := by
        have hm := processCards_mono w lu bn active st1 p
        rw [h7] at hm
        exact hm
      cases r7 with
      | error e =>
          simp only [processBoards, h1, h2, h3, h4, h5, h6, h7]
          exact hm1
      | ok v =>
          obtain ⟨recs1, st2⟩ := v
          rcases h8 : processBoards w bs st2 p1 with ⟨r8, p2⟩
          have hm2 : p1 ⊆ p2 := by
            have hm := ih st2 p1
            rw [h8] at hm
            exact hm
          cases r8 with
          | error e =>
              simp only [processBoards, h1, h2, h3, h4, h5, h6, h7, h8]
              exact hm1.trans hm2
          | ok v2 =>
              obtain ⟨recs2, st3⟩ := v2
              simp only [processBoards, h1, h2, h3, h4, h5, h6, h7, h8]
              exact hm1.trans hm2

/-- The whole try-block only grows the processed set. -/
theorem syncCore_mono (w : World) (p : List JVal) : p ⊆ (syncCore w p).2 := by
  unfold syncCore syncCoreFrom
  rcases hb : get_all_boards w with e | boards
  · exact fun x h => h
  · by_cases ht : isTruthy boards
    · simp only [ht, Bool.not_true, Bool.false_eq_true, if_false]
      rcases hi : asIterList boards with e | bs
      · exact fun x h => h
      · rcases hpb : processBoards w bs ⟨[], []⟩ p with ⟨r, p1⟩
        have hm : p ⊆ p1 := by
          have := processBoards_mono w bs ⟨[], []⟩ p
          rw [hpb] at this
          exact this
        cases r with
        | error e => simp only [hpb]; exact hm
        | ok v => simp only [hpb]; exact hm
    · simp only [ht, Bool.not_false, if_true]
      exact fun x h => h

/-- Re-running the board loop over the same upstream data with a
processed set that already contains everything the first (successful)
run processed emits no records and leaves the set unchanged. -/
theorem processBoards_second_pass (w : World) :
    ∀ (bs : List JVal) (st1 : ApiState) (p : List JVal) (ts : List TaskRecord)
      (st1' : ApiState) (p' : List JVal),
      processBoards w bs st1 p = (.ok (ts, st1'), p') →
      ∀ (st2 : ApiState) (q : List JVal), p' ⊆ q →
        ∃ st2', processBoards w bs st2 q = (.ok ([], st2'), q) := by
  intro bs
  induction bs with
  | nil =>
      intro st1 p ts st1' p' h st2 q hsub
      simp only [processBoards, Prod.mk.injEq, Except.ok.injEq] at h
      exact ⟨st2, rfl⟩
  | cons b bs ih =>
      intro st1 p ts st1' p' h st2 q hsub
      rcases h1 : dictIndex b "id" with e1 | bid
      · simp only [processBoards, h1] at h; exact absurd h (by simp)
      rcases h2 : dictIndex b "name" with e2 | bn
      · simp only [processBoards, h1, h2] at h; exact absurd h (by simp)
      rcases h3 : get_board_members w st1 bid with e3 | lust
      · simp only [processBoards, h1, h2, h3] at h; exact absurd h (by simp)
      obtain ⟨lu, st1a⟩ := lust
      rcases h4 : get_cards_on_board w bid with e4 | cardsJ
      · simp only [processBoards, h1, h2, h3, h4] at h; exact absurd h (by simp)
      rcases h5 : asIterList cardsJ with e5 | all_cards
      · simp only [processBoards, h1, h2, h3, h4, h5] at h
        exact absurd h (by simp)
      rcases h6 : filterActive all_cards with e6 | active
      · simp only [processBoards, h1, h2, h3, h4, h5, h6] at h
        exact absurd h (by simp)
      rcases h7 : processCards w lu bn active st1a p with ⟨r7, p1⟩
      cases r7 with
      | error e =>
          simp only [processBoards, h1, h2, h3, h4, h5, h6, h7] at h
          exact absurd h (by simp)
      | ok v =>
          obtain ⟨recs1, st1b⟩ := v
          rcases h8 : processBoards w bs st1b p1 with ⟨r8, p2⟩
          cases r8 with
          | error e =>
              simp only [processBoards, h1, h2, h3, h4, h5, h6, h7, h8] at h
              exact absurd h (by simp)
          | ok v2 =>
              obtain ⟨recs2, st1c⟩ := v2
              simp only [processBoards, h1, h2, h3, h4, h5, h6, h7, h8] at h
              have hp2 : p2 = p' := congrArg Prod.snd h
              have hp1q : p1 ⊆ q := by
                intro x hx
                have hm := processBoards_mono w bs st1b p1
                rw [h8] at hm
                exact hsub (hp2 ▸ hm hx)
              have hids := processCards_ok_ids w lu bn active st1a p recs1 st1b p1 h7
              have hcards : ∀ card ∈ active, ∃ cid cn cu,
                  dictIndex card "id" = .ok cid ∧ dictIndex card "name" = .ok cn ∧
                  dictIndex card "shortUrl" = .ok cu ∧ cid ∈ q := by
                intro card hc
                obtain ⟨cid, cn, cu, ha, hb', hc', hin⟩ := hids card hc
                exact ⟨cid, cn, cu, ha, hb', hc', hp1q hin⟩
              obtain ⟨st2a, h3'⟩ := get_board_members_lookup w st1 st2 bid lu st1a h3
              have h7' := processCards_all_skipped w lu bn active st2a q hcards
              have h8sub : p2 ⊆ q := hp2 ▸ hsub
              obtain ⟨st2b, h8'⟩ := ih st1b p1 recs2 st1c p2 h8 st2a q h8sub
              refine ⟨st2b, ?_⟩
              simp only [processBoards, h1, h2, h3', h4, h5, h6, h7', h8',
                List.nil_append]

/-- C9: when `/sync` aborts with an unhandled exception (HTTP 500, body
`{"error": str(e)}`, no records), the deduplication state is not rolled
back: the processed set only grew (every identifier present before the
request, and every identifier added before the failure, is in the
returned set), and any card whose identifier is in that set emits zero
records in every subsequent invocation. -/
theorem C9_dedup_survives_500 (key token now : String) (w : World)
    (p p' : List JVal) (body : JVal)
    (h : sync_trello key token w now p = ((500, body), p')) :
    (∃ msg, body = errBody msg) ∧ p ⊆ p' ∧
    (∀ (w' : World) (lu : List (JVal × JVal)) (bn card cid cn cu : JVal)
        (st : ApiState) (q : List JVal),
      dictIndex card "id" = .ok cid → dictIndex card "name" = .ok cn →
      dictIndex card "shortUrl" = .ok cu → cid ∈ q →
      processCard w' lu bn card st q = (.ok ([], st), q)) := by
  unfold sync_trello at h
  by_cases hcred : key = "your_api_key_here" ∨ token = "your_token_here"
  · rw [if_pos hcred] at h
    exact absurd h (by simp)
  · rw [if_neg hcred] at h
    rcases hsc : syncCore w p with ⟨r, p2⟩
    rw [hsc] at h
    cases r with
    | error e =>
        simp only [Prod.mk.injEq] at h
        obtain ⟨⟨_, hbody⟩, hp⟩ := h
        refine ⟨⟨e, hbody.symm⟩, ?_, ?_⟩
        · have hm := syncCore_mono w p
          rw [hsc] at hm
          exact hp ▸ hm
        · intro w' lu bn card cid cn cu st q hid hn hu hq
          exact processCard_skip w' lu bn card cid cn cu st q hid hn hu hq
    | ok so =>
        cases so with
        | noBoards =>
            simp only [Prod.mk.injEq] at h
            exact absurd h.1.1 (by decide)
        | found ts =>
            simp only [Prod.mk.injEq] at h
            exact absurd h.1.1 (by decide)

/-- C9 witness: a run over `wMidFail` returns the 500 with the processed
set grown by `cA` (added before the failure), and `cA` is skipped by any
later card-loop iteration. -/
theorem C9_dedup_survives_500_witness :
    sync_trello "k" "t" wMidFail "T0" [] = ((500, errBody "boom"), [.str "cA"]) ∧
    (∃ msg, errBody "boom" = errBody msg) ∧
    ([] : List JVal) ⊆ [.str "cA"] ∧
    processCard wMidFail [] (.str "Board") cardA ⟨[], []⟩ [.str "cA"] =
      (.ok ([], ⟨[], []⟩), [.str "cA"]) := by
  have h : sync_trello "k" "t" wMidFail "T0" [] =
      ((500, errBody "boom"), [.str "cA"]) := by decide
  have c := C9_dedup_survives_500 "k" "t" "T0" wMidFail [] [.str "cA"]
    (errBody "boom") h
  exact ⟨h, c.1, c.2.1,
    c.2.2 wMidFail [] (.str "Board") cardA (.str "cA") (.str "CardA") (.str "uA")
      ⟨[], []⟩ [.str "cA"] (by decide) (by decide) (by decide) (by decide)⟩

/-- C6: after a successful `/sync` (HTTP 200), re-running the flatten
pass in the same process against unchanged upstream data yields zero
records (every active card was seen in the first pass, entered the
processed set, and is never re-emitted) and leaves the processed set
unchanged. -/
theorem C6_second_pass_no_records (key token now now2 : String) (w : World)
    (p0 p1 : List JVal) (body : JVal)
    (h : sync_trello key token w now p0 = ((200, body), p1)) :
    sync_trello key token w now2 p1 = ((200, successBody now2 []), p1) := by
  unfold sync_trello at h ⊢
  by_cases hcred : key = "your_api_key_here" ∨ token = "your_token_here"
  · rw [if_pos hcred] at h
    exact absurd h (by simp)
  · rw [if_neg hcred] at h
    rw [if_neg hcred]
    rcases hsc : syncCore w p0 with ⟨r, p2⟩
    rw [hsc] at h
    cases r with
    | error e =>
        simp only [Prod.mk.injEq] at h
        exact absurd h.1.1 (by decide)
    | ok so =>
        cases so with
        | noBoards =>
            simp only [Prod.mk.injEq] at h
            exact absurd h.1.1 (by decide)
        | found ts =>
            simp only [Prod.mk.injEq] at h
            obtain ⟨⟨_, hbody⟩, hp⟩ := h
            subst hp
            unfold syncCore syncCoreFrom at hsc
            rcases hb : get_all_boards w with e | boards
            · rw [hb] at hsc; exact absurd hsc (by simp)
            · rw [hb] at hsc
              cases htr : isTruthy boards with
              | false =>
                  simp only [htr, Bool.not_false, if_true] at hsc
                  exact absurd hsc (by simp)
              | true =>
                  simp only [htr, Bool.not_true, Bool.false_eq_true, if_false] at hsc
                  rcases hi : asIterList boards with e | bs
                  · rw [hi] at hsc; exact absurd hsc (by simp)
                  · simp only [hi] at hsc
                    rcases hpb : processBoards w bs ⟨[], []⟩ p0 with ⟨r2, p3⟩
                    rw [hpb] at hsc
                    cases r2 with
                    | error e => exact absurd hsc (by simp)
                    | ok v =>
                        obtain ⟨tasks, stf⟩ := v
                        simp only [Prod.mk.injEq, Except.ok.injEq,
                          SyncOut.found.injEq] at hsc
                        obtain ⟨_, hp3⟩ := hsc
                        subst hp3
                        obtain ⟨st2b, hpb2⟩ :=
                          processBoards_second_pass w bs ⟨[], []⟩ p0 tasks stf p3
                            hpb ⟨[], []⟩ p3 (fun x hx => hx)
                        have hsc2 : syncCore w p3 = (.ok (.found []), p3) := by
                          unfold syncCore syncCoreFrom
                          simp only [hb, htr, Bool.not_true, Bool.false_eq_true,
                            if_false, hi, hpb2]
                        simp only [hsc2]

/-- C6 witness: a concrete first pass over `wOne` succeeds with one
record; the second pass over the same world returns zero records. -/
theorem C6_second_pass_no_records_witness :
    sync_trello "k" "t" wOne "T1" [.str "c1"] =
      ((200, successBody "T1" []), [.str "c1"]) :=
  C6_second_pass_no_records "k" "t" "T0" "T1" wOne [] [.str "c1"]
    (successBody "T0"
      [mkTaskRecord (.str "Board") (.str "Card1") (.str "Doing") "" (.str "u1") ""
        ⟨.str "step1", "Complete", "", .str ""⟩])
    (by decide)
